import Mathlib

/-!
Shallow embedding of the CertificateGen credential vault, the credential
validation endpoint, and the bulk e-mail dispatcher, with proofs of the
specified properties of these components.
-/

namespace CertGen

/-! ### Browser string primitives used by the source -/

/-- Base64 alphabet used by the browser `btoa` primitive. -/
def base64Alphabet : List Char :=
  "ABCDEFGHIJKLMNOPQRSTUVWXYZabcdefghijklmnopqrstuvwxyz0123456789+/".data

/-- Character of the base64 alphabet at sextet `i`. -/
def b64At (i : Nat) : Char := base64Alphabet.getD (i % 64) 'A'

/-- Model of the browser `btoa` primitive on a byte list: standard base64,
processing the input in chunks of three bytes. -/
def btoa : List Nat → List Char
  | [] => []
  | [b0] => [b64At (b0 / 4), b64At (b0 % 4 * 16), '=', '=']
  | [b0, b1] => [b64At (b0 / 4), b64At (b0 % 4 * 16 + b1 / 16), b64At (b1 % 16 * 4), '=']
  | b0 :: b1 :: b2 :: rest =>
      b64At (b0 / 4) :: b64At (b0 % 4 * 16 + b1 / 16) ::
        b64At (b1 % 16 * 4 + b2 / 64) :: b64At (b2 % 64) :: btoa rest

/-- Byte view of a JavaScript string (code units; the source only feeds
ASCII data to `btoa`). -/
def strBytes (s : String) : List Nat := s.data.map Char.toNat

/-- `s.replace(/\s/g, "")`: remove every whitespace character. -/
def stripWs (s : String) : String := ⟨s.data.filter (fun c => !c.isWhitespace)⟩

/-- JavaScript `s.toLowerCase()` on the ASCII data the source feeds it. -/
def toLowerStr (s : String) : String := ⟨s.data.map Char.toLower⟩

/-- JavaScript `s.trim()`: drop leading and trailing whitespace. -/
def trimStr (s : String) : String :=
  ⟨((s.data.dropWhile Char.isWhitespace).reverse.dropWhile Char.isWhitespace).reverse⟩

/-- Character class `[a-zA-Z0-9._%+-]` (local part of the accepted addresses). -/
def isLocalChar (c : Char) : Bool :=
  c.isAlphanum || c = '.' || c = '_' || c = '%' || c = '+' || c = '-'

/-- Character class `[a-zA-Z0-9.-]` (domain part of the accepted addresses). -/
def isDomainChar (c : Char) : Bool := c.isAlphanum || c = '.' || c = '-'

/-- The test `/^[a-zA-Z0-9._%+-]+@(gmail\.com|[a-zA-Z0-9.-]+\.edu\.in)$/.test s`.
Neither character class contains `@`, so a match splits the string at its
unique `@` into a non-empty local part and a domain that is either exactly
`gmail.com` or a non-empty `[a-zA-Z0-9.-]+` followed by `.edu.in`. -/
def emailRegexTest (s : String) : Bool :=
  match s.data.splitOn '@' with
  | [localPart, domainPart] =>
      !localPart.isEmpty && localPart.all isLocalChar &&
        (domainPart == "gmail.com".data ||
          (decide (7 ≤ domainPart.length) &&
            domainPart.drop (domainPart.length - 7) == ".edu.in".data &&
            !(domainPart.take (domainPart.length - 7)).isEmpty &&
            (domainPart.take (domainPart.length - 7)).all isDomainChar))
  | _ => false

/-- The test `/^[a-zA-Z0-9]+$/.test s`: non-empty and all alphanumeric. -/
def alnumTest (s : String) : Bool := !s.data.isEmpty && s.data.all Char.isAlphanum

/-- JavaScript `s.includes(sub)` for a non-empty `sub`. -/
def strIncludes (s sub : String) : Bool := (s.splitOn sub).length != 1

/-! ### Credential Vault (secure credential storage module) -/

/-- `KEY_DERIVATION_ITERATIONS = 100000`. -/
def KEY_DERIVATION_ITERATIONS : Nat := 100000

/-- `SESSION_TIMEOUT = 60 * 60 * 1000` (one hour, in milliseconds). -/
def SESSION_TIMEOUT : Nat := 60 * 60 * 1000

/-- The plain record that gets encrypted (source interface `EncryptedCredentials`). -/
structure EncryptedCredentials where
  email : String
  appPassword : String
  timestamp : Nat
deriving DecidableEq, Repr

/-- An AES-256-GCM key is determined by its PBKDF2 inputs (password and
salt); the key derivation is modelled as the injective pairing of those
inputs. -/
structure DerivedKey where
  password : String
  salt : List Nat
deriving DecidableEq, Repr

/-- Idealised authenticated ciphertext: records the key and IV it was
produced with, and the plaintext; decryption succeeds exactly when key
and IV match (the GCM integrity property). -/
structure CipherText where
  key : DerivedKey
  iv : List Nat
  plain : EncryptedCredentials
deriving DecidableEq, Repr

/-- `crypto.subtle.encrypt` with AES-GCM, idealised. -/
def aesGcmEncrypt (k : DerivedKey) (iv : List Nat) (m : EncryptedCredentials) : CipherText :=
  ⟨k, iv, m⟩

/-- `crypto.subtle.decrypt` with AES-GCM, idealised: returns the plaintext
when key and IV match the ones used at encryption, and fails the
integrity check otherwise. -/
def aesGcmDecrypt (k : DerivedKey) (iv : List Nat) (c : CipherText) : Option EncryptedCredentials :=
  if c.key = k ∧ c.iv = iv then some c.plain else none

/-- The stored envelope (source interface `StoredCredentials`). The
base64 decoding applied at read time inverts the encoding applied at
store time, so `iv` and `salt` are kept as byte lists. -/
structure StoredCredentials where
  encryptedData : CipherText
  iv : List Nat
  salt : List Nat
  timestamp : Nat
deriving DecidableEq, Repr

/-- `generateSessionPassword`: base64 of the browser fingerprint string
concatenated with the decimal digits of 32 fresh random bytes, truncated
to the first 32 characters. The fingerprint is fixed for one page
lifetime; the entropy bytes are fresh on every call. -/
def generateSessionPassword (fingerprint : String) (sessionEntropy : List Nat) : String :=
  ⟨(btoa (strBytes fingerprint ++ strBytes (String.join (sessionEntropy.map toString)))).take 32⟩

/-- `encryptCredentials`: validates the inputs, encrypts, and returns the
envelope written to sessionStorage; `.error` carries the thrown message. -/
def encryptCredentials (fingerprint : String) (sessionEntropy salt iv : List Nat) (now : Nat)
    (email appPassword : String) : Except String StoredCredentials :=
  if email = "" ∨ appPassword = "" then .error "Email and app password are required"
  else if !emailRegexTest (trimStr email) then
    .error "Please enter a valid Gmail address or educational email (.edu.in)"
  else
    let cleanAppPassword := stripWs appPassword
    if !(cleanAppPassword.length == 16) || !alnumTest cleanAppPassword then
      .error "Invalid app password format. Should be 16 characters."
    else
      let credentials : EncryptedCredentials := ⟨toLowerStr (trimStr email), cleanAppPassword, now⟩
      let sessionPassword := generateSessionPassword fingerprint sessionEntropy
      let key : DerivedKey := ⟨sessionPassword, salt⟩
      .ok ⟨aesGcmEncrypt key iv credentials, iv, salt, now⟩

/-- `clearCredentials`: removes the envelope from storage; never fails. -/
def clearCredentials (_stored : Option StoredCredentials) : Option StoredCredentials := none

/-- `decryptCredentials`: returns the retrieved credential (or `none`)
together with the storage state afterwards (`none` means the envelope was
purged via `clearCredentials`, or was absent). Every failure path of the
source (absent envelope, expiry, integrity failure) returns `null`
normally; the surrounding try/catch turns any thrown error into
`clearCredentials()` plus `null`, so the function never raises. -/
def decryptCredentials (fingerprint : String) (sessionEntropy : List Nat) (now : Nat)
    (stored : Option StoredCredentials) :
    Option EncryptedCredentials × Option StoredCredentials :=
  match stored with
  | none => (none, none)
  | some parsed =>
    if SESSION_TIMEOUT < now - parsed.timestamp then (none, clearCredentials (some parsed))
    else
      let sessionPassword := generateSessionPassword fingerprint sessionEntropy
      let key : DerivedKey := ⟨sessionPassword, parsed.salt⟩
      match aesGcmDecrypt key parsed.iv parsed.encryptedData with
      | none => (none, clearCredentials (some parsed))
      | some credentials =>
        if SESSION_TIMEOUT < now - credentials.timestamp then
          (none, clearCredentials (some parsed))
        else (some credentials, some parsed)

/-- A concrete browser fingerprint (49 ASCII bytes). -/
def fpW : String := "Mozilla/5.0 (X11; Linux x86_64) AppleWebKit/537.3"

/-- The envelope produced by the concrete store call of the C1 witness. -/
def stW : StoredCredentials :=
  ⟨aesGcmEncrypt ⟨generateSessionPassword fpW [1], [7]⟩ [9]
    ⟨"user@gmail.com", "abcdefghijklmnop", 0⟩, [9], [7], 0⟩

/-! ### Credential Validation Service (validate-gmail-credentials route) -/

/-- `RATE_LIMIT_WINDOW = 15 * 60 * 1000` (15 minutes, in milliseconds). -/
def RATE_LIMIT_WINDOW : Nat := 15 * 60 * 1000

/-- `RATE_LIMIT_MAX_ATTEMPTS = 5`. -/
def RATE_LIMIT_MAX_ATTEMPTS : Nat := 5

/-- One entry of the in-memory `rateLimitStore`. -/
structure RateLimitEntry where
  count : Nat
  resetTime : Nat
deriving DecidableEq, Repr

/-- The `rateLimitStore` map, keyed by client IP. -/
def RateLimitStore : Type := String → Option RateLimitEntry

/-- `rateLimitStore.set(ip, e)`. -/
def rateLimitSet (store : RateLimitStore) (ip : String) (e : RateLimitEntry) : RateLimitStore :=
  fun k => if k = ip then some e else store k

/-- Result of `checkRateLimit`: whether the attempt is allowed, the
reported reset time when it is not, and the store afterwards. -/
structure RateCheck where
  allowed : Bool
  resetTime : Option Nat
  store : RateLimitStore

/-- `checkRateLimit`: fresh or elapsed entries reset to count 1 with a new
window; a count at the maximum rejects (leaving the entry untouched);
otherwise the count is incremented and the attempt allowed. -/
def checkRateLimit (now : Nat) (store : RateLimitStore) (ip : String) : RateCheck :=
  match store ip with
  | none => ⟨true, none, rateLimitSet store ip ⟨1, now + RATE_LIMIT_WINDOW⟩⟩
  | some entry =>
    if entry.resetTime < now then
      ⟨true, none, rateLimitSet store ip ⟨1, now + RATE_LIMIT_WINDOW⟩⟩
    else if RATE_LIMIT_MAX_ATTEMPTS ≤ entry.count then
      ⟨false, some entry.resetTime, store⟩
    else ⟨true, none, rateLimitSet store ip ⟨entry.count + 1, entry.resetTime⟩⟩

/-- The store after a sequence of validation attempts from `ip` at the
given times. -/
def rateAttempts (ip : String) : List Nat → RateLimitStore → RateLimitStore
  | [], store => store
  | t :: ts, store => rateAttempts ip ts (checkRateLimit t store ip).store

/-- Result of `validateInput`. -/
inductive ValidationResult where
  | valid
  | invalid (error : String)
deriving DecidableEq, Repr

/-- `validateInput`: email format first, then app-password length and
character class, mirroring the source's check order and messages. -/
def validateInput (email appPassword : String) : ValidationResult :=
  if email = "" then .invalid "Email is required"
  else if !emailRegexTest (trimStr email) then
    .invalid "Please enter a valid Gmail address or educational email (.edu.in)"
  else if appPassword = "" then .invalid "App password is required"
  else
    let cleanPassword := stripWs appPassword
    if !(cleanPassword.length == 16) then
      .invalid ("App password must be 16 characters (got " ++ toString cleanPassword.length ++ ")")
    else if !alnumTest cleanPassword then .invalid "App password contains invalid characters"
    else .valid

/-- Responses of the validation endpoint's POST handler. -/
inductive ValidateResponse where
  | insecureTransport
  | rateLimited (resetTime : Nat)
  | badRequest (error : String)
  | authFailed
  | okResp
deriving DecidableEq, Repr

/-- The POST handler of the validation route: transport check, rate
check, format validation, then the live SMTP check (whose outcome is the
oracle `live`). Returns the response and the rate-limit store afterwards. -/
def validatePOST (isProduction httpsUrl : Bool) (now : Nat) (store : RateLimitStore)
    (ip : String) (email appPassword : String) (live : Bool) :
    ValidateResponse × RateLimitStore :=
  if isProduction && !httpsUrl then (.insecureTransport, store)
  else
    let rc := checkRateLimit now store ip
    if !rc.allowed then (.rateLimited (rc.resetTime.getD now), rc.store)
    else
      match validateInput email appPassword with
      | .invalid e => (.badRequest e, rc.store)
      | .valid => if live then (.okResp, rc.store) else (.authFailed, rc.store)

/-! ### Mail Dispatcher (email-service module) and send-certificates route -/

/-- The two e-mail backends. -/
inductive EmailProvider where
  | resend
  | gmail
deriving DecidableEq, Repr

/-- The two delivery strategies. -/
inductive SendingMode where
  | sequential
  | pooled
deriving DecidableEq, Repr

/-- One entry of the recipients array handed to the bulk senders. -/
structure Recipient where
  email : String
  name : String
  certificateBlob : List Nat
  fileName : String
deriving DecidableEq, Repr

/-- The credentials object `{email, appPassword}`. -/
structure Credentials where
  email : String
  appPassword : String
deriving DecidableEq, Repr

/-- JavaScript `s.endsWith(t)`. -/
def strEndsWith (s t : String) : Bool :=
  s.data.drop (s.data.length - t.data.length) == t.data

/-- One attachment of an outgoing message: inline byte content, inline
base64 content, or a filesystem path, optionally with a content-id. -/
structure Attachment where
  filename : String
  contentBytes : Option (List Nat)
  contentB64 : Option String
  path : Option String
  cid : Option String
deriving DecidableEq, Repr

/-- The parts of an outgoing message the dispatch behaviour depends on. -/
structure EmailMessage where
  fromAddr : String
  toAddr : String
  subject : String
  attachments : List Attachment
deriving DecidableEq, Repr

/-- The subject line used by every branch of the dispatcher. -/
def gmailSubject (recipientName : String) : String :=
  "🎓 Congratulations " ++ recipientName ++ "! Your Certificate is Ready"

/-- The fixed static path of the organization logo. -/
def LOGO_PATH : String := "./public/klh.png"

/-- Attachment list of a direct-submission (gmail) message: the logo,
referenced by content-id from the fixed static path, unconditionally,
plus the certificate image under the recipient's file name. -/
def gmailAttachments (fileName : String) (buffer : List Nat) : List Attachment :=
  [⟨"klh-logo.png", none, none, some LOGO_PATH, some "klh-logo"⟩,
    ⟨fileName, some buffer, none, none, none⟩]

/-- The message built by the gmail branch of `sendCertificateEmail`. -/
def gmailMessage (creds : Credentials) (email recipientName : String)
    (buffer : List Nat) (fileName : String) : EmailMessage :=
  ⟨"\"KLH University - Certificate Team\" <" ++ creds.email ++ ">", email,
    gmailSubject recipientName, gmailAttachments fileName buffer⟩

/-- The message built by the resend branch: no logo, certificate content
as base64. -/
def resendMessage (resendFrom : String) (email recipientName : String)
    (buffer : List Nat) (fileName : String) : EmailMessage :=
  ⟨resendFrom, email, gmailSubject recipientName,
    [⟨fileName, none, some ⟨btoa buffer⟩, none, none⟩]⟩

/-- Environment of the dispatcher: which static files exist, the sender
address of the hosted API, and the delivery oracles of the SMTP
transporter and of the hosted API. -/
structure MailEnv where
  files : List String
  resendFrom : String
  deliver : EmailMessage → Except String String
  resendSend : EmailMessage → Except String (Option String)

/-- Model of the mail library's `sendMail`: an attachment given by a
filesystem path is read at send time, and a missing file fails the whole
call; otherwise the outcome is the transporter oracle's. -/
def sendMailModel (env : MailEnv) (msg : EmailMessage) : Except String String :=
  if msg.attachments.any (fun a =>
      match a.path with
      | some p => !(env.files.contains p)
      | none => false) then
    .error "ENOENT: no such file or directory"
  else env.deliver msg

/-- Outcome of one `sendCertificateEmail` call. -/
inductive SendOutcome where
  | sent (messageId : Option String) (provider : String)
  | failed (error : String) (provider : String)
deriving DecidableEq, Repr

/-- `sendCertificateEmail` (the credential-aware version): gmail requires
a credential and a supported domain, then sends the gmail message through
the transporter; resend sends through the hosted API; every thrown error
is caught and returned as a failed outcome carrying the provider. -/
def sendCertificateEmail (env : MailEnv) (email recipientName : String)
    (buffer : List Nat) (fileName : String) (provider : EmailProvider)
    (credentials : Option Credentials) : SendOutcome :=
  match provider with
  | .gmail =>
    match credentials with
    | none => .failed "Gmail credentials required but not provided" "gmail"
    | some creds =>
      if !(strEndsWith creds.email "@gmail.com") && !(strIncludes creds.email ".edu.in") then
        .failed "Unsupported email domain" "gmail"
      else
        match sendMailModel env (gmailMessage creds email recipientName buffer fileName) with
        | .ok mid => .sent (some mid) "gmail"
        | .error e => .failed e "gmail"
  | .resend =>
    match env.resendSend (resendMessage env.resendFrom email recipientName buffer fileName) with
    | .ok mid => .sent mid "resend"
    | .error e => .failed e "resend"

/-- One row of the results array: `{email, ...result}`. -/
structure DispatchResult where
  email : String
  success : Bool
  messageId : Option String
  error : Option String
  provider : String
deriving DecidableEq, Repr

/-- Spreading a send outcome into the per-recipient result row. -/
def toDispatchResult (email : String) : SendOutcome → DispatchResult
  | .sent mid p => ⟨email, true, mid, none, p⟩
  | .failed e p => ⟨email, false, none, some e, p⟩

/-- The dispatch of a single recipient inside the sequential loop. -/
def sendOne (env : MailEnv) (provider : EmailProvider) (credentials : Option Credentials)
    (r : Recipient) : DispatchResult :=
  toDispatchResult r.email
    (sendCertificateEmail env r.email r.name r.certificateBlob r.fileName provider credentials)

/-- Start time of each sequential attempt: the next attempt starts only
after the previous send resolved (taking `dur r` time) plus the fixed
500 ms delay. -/
def seqStarts (dur : Recipient → Nat) (t0 : Nat) : List Recipient → List Nat
  | [] => []
  | r :: rest => t0 :: seqStarts dur (t0 + dur r + 500) rest

/-- The sequential loop of `sendBulkCertificates`: each recipient's send
is fully awaited (its outcome, success or failure, recorded) and then a
fixed 500 ms delay awaited, before the next begins. `dur r` is the time
the send of `r` takes. Each result is paired with the time its attempt
started; the second component is the time the loop finishes. -/
def seqRun (env : MailEnv) (provider : EmailProvider) (credentials : Option Credentials)
    (dur : Recipient → Nat) (t0 : Nat) :
    List Recipient → List (Nat × DispatchResult) × Nat
  | [] => ([], t0)
  | r :: rest =>
    let res := sendOne env provider credentials r
    let tail := seqRun env provider credentials dur (t0 + dur r + 500) rest
    ((t0, res) :: tail.1, tail.2)

/-- The message built inside the pooled loop (same shape: logo by
content-id from the static path, certificate by content). -/
def pooledMessage (creds : Credentials) (r : Recipient) : EmailMessage :=
  ⟨"\"KLH University - Certificate Team\" <" ++ creds.email ++ ">", r.email,
    gmailSubject r.name, gmailAttachments r.fileName r.certificateBlob⟩

/-- One pooled send: success and failure are both recorded as exactly one
result row with provider "gmail-pooled". -/
def pooledSendOne (env : MailEnv) (creds : Credentials) (r : Recipient) : DispatchResult :=
  match sendMailModel env (pooledMessage creds r) with
  | .ok mid => ⟨r.email, true, some mid, none, "gmail-pooled"⟩
  | .error e => ⟨r.email, false, none, some e, "gmail-pooled"⟩

/-- State of one pooled batch: the queue of pending recipients, the
recorded results (`sentCount` is its length: the source increments both
together), whether the pool was closed, and the resolved value of the
returned promise. -/
structure PooledState where
  queued : List Recipient
  results : List DispatchResult
  closed : Bool
  resolved : Option (List DispatchResult)
deriving DecidableEq, Repr

/-- The `while (isIdle && queued.length > 0)` loop of one idle event: the
transporter accepts `k` sends before reporting busy; each iteration
shifts one recipient off the queue and records exactly one result. -/
def processWhileIdle (env : MailEnv) (creds : Credentials) :
    Nat → PooledState → PooledState
  | 0, s => s
  | k + 1, s =>
    match s.queued with
    | [] => s
    | r :: rest =>
      processWhileIdle env creds k
        { s with queued := rest, results := s.results ++ [pooledSendOne env creds r] }

/-- One idle event of `sendBulkCertificatesPooled`: drain while idle,
then the completion check — once the queue is empty and every recipient
has produced a result, close the pool and resolve the promise. -/
def handleIdle (env : MailEnv) (creds : Credentials) (total : Nat) (k : Nat)
    (s : PooledState) : PooledState :=
  let s1 := processWhileIdle env creds k s
  if s1.queued.isEmpty && s1.results.length == total then
    { s1 with closed := true, resolved := some s1.results }
  else s1

/-- Successive idle events with the capacities the pool reports. -/
def runIdleEvents (env : MailEnv) (creds : Credentials) (total : Nat) :
    List Nat → PooledState → PooledState
  | [], s => s
  | k :: ks, s => runIdleEvents env creds total ks (handleIdle env creds total k s)

/-- `sendBulkCertificatesPooled` on a batch, under the idle-capacity
schedule `ks` of the event-driven pool. -/
def sendBulkCertificatesPooled (env : MailEnv) (creds : Credentials)
    (recipients : List Recipient) (ks : List Nat) : PooledState :=
  runIdleEvents env creds recipients.length ks ⟨recipients, [], false, none⟩

/-- The mode auto-selection of `sendBulkCertificates`. -/
def shouldUsePooled (sendingMode : Option SendingMode) (provider : EmailProvider)
    (n : Nat) : Bool :=
  sendingMode == some .pooled ||
    (sendingMode != some .sequential && provider == .gmail && decide (50 ≤ n))

/-- The strategy actually taken by `sendBulkCertificates`: the pooled
branch runs exactly when `shouldUsePooled` holds and the provider is
gmail; every other combination falls through to the sequential loop. -/
def selectedMode (sendingMode : Option SendingMode) (provider : EmailProvider)
    (n : Nat) : SendingMode :=
  if shouldUsePooled sendingMode provider n && provider == .gmail then .pooled
  else .sequential

/-- Overall outcome of one `sendBulkCertificates` call. -/
inductive BulkOutcome where
  | thrown (message : String)
  | seqDone (results : List (Nat × DispatchResult)) (endTime : Nat)
  | pooledRun (final : PooledState)
deriving Repr

/-- `sendBulkCertificates`: choose the strategy; the pooled branch throws
when no credentials were supplied (and when the credential's domain is
unsupported, from the pooled transporter construction), otherwise runs
the pooled batch; every other case runs the sequential loop. -/
def sendBulkCertificates (env : MailEnv) (recipients : List Recipient)
    (provider : EmailProvider) (sendingMode : Option SendingMode)
    (credentials : Option Credentials) (dur : Recipient → Nat) (t0 : Nat)
    (ks : List Nat) : BulkOutcome :=
  if shouldUsePooled sendingMode provider recipients.length && provider == .gmail then
    match credentials with
    | none => .thrown "Gmail credentials required for pooled sending"
    | some creds =>
      if !(strEndsWith creds.email "@gmail.com") && !(strIncludes creds.email ".edu.in") then
        .thrown "Unsupported email domain"
      else .pooledRun (sendBulkCertificatesPooled env creds recipients ks)
  else
    let run := seqRun env provider credentials dur t0 recipients
    .seqDone run.1 run.2

/-- Response of the send-certificates route (the fields the claims are
about). -/
structure RouteResponse where
  success : Bool
  status : Nat
  sentCount : Option Nat
  errors : Option (List (String × Option String))
  errorMsg : Option String
deriving DecidableEq, Repr

/-- The POST handler of the send-certificates route. The route forwards
no credentials to `sendBulkCertificates`; a thrown dispatch error is
caught and answered with status 500; `none` models a request whose
promise never resolves. -/
def POSTsendCertificates (env : MailEnv) (recipients : List Recipient)
    (provider : EmailProvider) (sendingMode : Option SendingMode)
    (dur : Recipient → Nat) (t0 : Nat) (ks : List Nat) : Option RouteResponse :=
  if recipients.length == 0 then
    some ⟨false, 400, none, none, some "No recipients provided"⟩
  else
    match sendBulkCertificates env recipients provider sendingMode none dur t0 ks with
    | .thrown msg => some ⟨false, 500, none, none, some msg⟩
    | .seqDone timed _ =>
      let results := timed.map (fun tr => tr.2)
      some ⟨true, 200, some (results.filter (fun r => r.success)).length,
        some ((results.filter (fun r => !r.success)).map (fun r => (r.email, r.error))), none⟩
    | .pooledRun final =>
      match final.resolved with
      | some results =>
        some ⟨true, 200, some (results.filter (fun r => r.success)).length,
          some ((results.filter (fun r => !r.success)).map (fun r => (r.email, r.error))), none⟩
      | none => none

/-- A default recipient used only as the fall-back value of `List.getD`. -/
def defaultRecipient : Recipient := ⟨"", "", [], ""⟩

/-- The mail environment of the concrete instances below: the logo file
exists, the transporter and the hosted API accept everything. -/
def envW : MailEnv :=
  ⟨["./public/klh.png"], "certs@example.com", fun _ => .ok "mid-1", fun _ => .ok (some "rid-1")⟩

/-- A concrete recipient. -/
def rW : Recipient := ⟨"r1@x.com", "R One", [1, 2], "r1.png"⟩

/-- A second concrete recipient. -/
def rW2 : Recipient := ⟨"r2@x.com", "R Two", [3], "r2.png"⟩

/-- Invariant of the pooled batch loop: the recorded results are exactly
the dispatches of the processed front of the recipient list, the queue
holds the rest, and the promise is resolved (and the pool closed) only in
the completed state. -/
def PooledInv (env : MailEnv) (creds : Credentials) (rs : List Recipient)
    (s : PooledState) : Prop :=
  s.queued = rs.drop s.results.length
  ∧ s.results = (rs.take s.results.length).map (pooledSendOne env creds)
  ∧ s.results.length ≤ rs.length
  ∧ ((s.resolved = none ∧ s.closed = false)
      ∨ (s.resolved = some s.results ∧ s.closed = true
          ∧ s.results.length = rs.length))

/-- A mail environment whose transporter rejects the second recipient's
address and accepts everything else. -/
def envFail : MailEnv :=
  ⟨["./public/klh.png"], "certs@example.com",
    fun m => if m.toAddr = "r2@x.com" then .error "boom" else .ok "mid-1",
    fun _ => .ok (some "rid-1")⟩

/-- The same environment as `envW` except that no static files exist. -/
def envNoLogo : MailEnv :=
  ⟨[], "certs@example.com", fun _ => .ok "mid-1", fun _ => .ok (some "rid-1")⟩

theorem btoa_append (l2 : List Nat) :
    ∀ l1 : List Nat, l1.length % 3 = 0 → btoa (l1 ++ l2) = btoa l1 ++ btoa l2
  | [], _ => by simp [btoa]
  | [b0], h => by simp at h
  | [b0, b1], h => by simp at h
  | b0 :: b1 :: b2 :: rest, h => by
      have h3 : rest.length % 3 = 0 := by
        simp [Nat.add_mod] at h
        omega
      simp only [List.cons_append, btoa, List.append_eq, btoa_append l2 rest h3]

theorem btoa_length :
    ∀ l : List Nat, l.length % 3 = 0 → (btoa l).length = l.length / 3 * 4
  | [], _ => by simp [btoa]
  | [b0], h => by simp at h
  | [b0, b1], h => by simp at h
  | b0 :: b1 :: b2 :: rest, h => by
      have h3 : rest.length % 3 = 0 := by
        simp [Nat.add_mod] at h
        omega
      simp only [btoa, List.length_cons, btoa_length rest h3]
      have hdiv : (rest.length + 1 + 1 + 1) / 3 = rest.length / 3 + 1 := by
        have := Nat.add_div_right rest.length (show 0 < 3 by norm_num)
        omega
      rw [hdiv]
      ring

/-- The first 32 characters of `btoa` depend only on the first 24 input
bytes, so `generateSessionPassword` is independent of the fresh entropy
whenever the fingerprint is at least 24 bytes long: the fresh random
bytes are appended after the fingerprint and truncated away. -/
theorem generateSessionPassword_deterministic (fingerprint : String) (e1 e2 : List Nat)
    (hfp : 24 ≤ (strBytes fingerprint).length) :
    generateSessionPassword fingerprint e1 = generateSessionPassword fingerprint e2 := by
  have key : ∀ x : List Nat,
      (btoa (strBytes fingerprint ++ x)).take 32 = btoa ((strBytes fingerprint).take 24) := by
    intro x
    have hsplit : strBytes fingerprint ++ x
        = (strBytes fingerprint).take 24 ++ ((strBytes fingerprint).drop 24 ++ x) := by
      rw [← List.append_assoc, List.take_append_drop]
    have hlen : ((strBytes fingerprint).take 24).length = 24 := by
      simp [List.length_take]
      omega
    rw [hsplit, btoa_append _ _ (by rw [hlen])]
    exact List.take_left' (by rw [btoa_length _ (by rw [hlen]), hlen])
  unfold generateSessionPassword
  rw [String.ext_iff]
  show (btoa _).take 32 = (btoa _).take 32
  rw [key, key]

/-- Unfolding equation for `decryptCredentials` on a present envelope. -/
theorem decryptCredentials_some (fingerprint : String) (e : List Nat) (now : Nat)
    (parsed : StoredCredentials) :
    decryptCredentials fingerprint e now (some parsed)
      = if SESSION_TIMEOUT < now - parsed.timestamp then (none, none)
        else
          match aesGcmDecrypt ⟨generateSessionPassword fingerprint e, parsed.salt⟩
              parsed.iv parsed.encryptedData with
          | none => (none, none)
          | some credentials =>
            if SESSION_TIMEOUT < now - credentials.timestamp then (none, none)
            else (some credentials, some parsed) := rfl

/-- Decrypting with the key and IV used at encryption recovers the plaintext. -/
theorem aesGcm_decrypt_encrypt (k : DerivedKey) (iv : List Nat) (m : EncryptedCredentials) :
    aesGcmDecrypt k iv (aesGcmEncrypt k iv m) = some m := by
  simp [aesGcmDecrypt, aesGcmEncrypt]

/-- C1: for every {address, secret} pair accepted by format validation,
storing via `encryptCredentials` and then retrieving via
`decryptCredentials` within the 1-hour expiry window, in the same page
lifetime (same fingerprint, any fresh entropy on each call, the
fingerprint being at least 24 bytes as every browser user-agent string
is), returns the stored Credential: the normalized (trimmed, lowercased)
address, the whitespace-stripped secret, and the capture time. -/
theorem vault_store_retrieve_roundtrip (fingerprint : String)
    (e1 e2 salt iv : List Nat) (storeTime retrieveTime : Nat)
    (email appPassword : String) (st : StoredCredentials)
    (hfp : 24 ≤ (strBytes fingerprint).length)
    (henc : encryptCredentials fingerprint e1 salt iv storeTime email appPassword = .ok st)
    (hwin : retrieveTime - storeTime ≤ SESSION_TIMEOUT) :
    decryptCredentials fingerprint e2 retrieveTime (some st)
      = (some ⟨toLowerStr (trimStr email), stripWs appPassword, storeTime⟩, some st) := by
  unfold encryptCredentials at henc
  split at henc
  · exact absurd henc (by simp)
  split at henc
  · exact absurd henc (by simp)
  dsimp only at henc
  split at henc
  · exact absurd henc (by simp)
  have hst : st = ⟨aesGcmEncrypt ⟨generateSessionPassword fingerprint e1, salt⟩ iv
      ⟨toLowerStr (trimStr email), stripWs appPassword, storeTime⟩, iv, salt, storeTime⟩ := by
    exact (Except.ok.inj henc).symm
  subst hst
  rw [decryptCredentials_some]
  dsimp only
  rw [if_neg (by omega)]
  rw [generateSessionPassword_deterministic fingerprint e2 e1 hfp]
  rw [aesGcm_decrypt_encrypt]
  dsimp only
  rw [if_neg (by omega)]

/-- C7: `decryptCredentials` returns `none` when no envelope is stored
(leaving the empty store unchanged), `none` with the envelope purged when
more than one hour has elapsed since capture, `none` with the envelope
purged when the authenticated-decryption integrity check fails (key or IV
mismatch), and in every case either returns `none` or the decrypted
credential of the envelope with the envelope retained — it is a total
function and never raises on missing, corrupt, or expired data. -/
theorem decrypt_never_raises (fingerprint : String) (e : List Nat) (now : Nat) :
    (decryptCredentials fingerprint e now none = (none, none))
    ∧ (∀ st : StoredCredentials, SESSION_TIMEOUT < now - st.timestamp →
        decryptCredentials fingerprint e now (some st) = (none, none))
    ∧ (∀ st : StoredCredentials,
        st.encryptedData.key ≠ ⟨generateSessionPassword fingerprint e, st.salt⟩
          ∨ st.encryptedData.iv ≠ st.iv →
        decryptCredentials fingerprint e now (some st) = (none, none))
    ∧ (∀ st : StoredCredentials,
        (decryptCredentials fingerprint e now (some st)).1 = none
        ∨ (decryptCredentials fingerprint e now (some st))
            = (some st.encryptedData.plain, some st)) := by
  refine ⟨rfl, ?_, ?_, ?_⟩
  · intro st hexp
    rw [decryptCredentials_some, if_pos hexp]
  · intro st hbad
    rw [decryptCredentials_some]
    have hnone : aesGcmDecrypt ⟨generateSessionPassword fingerprint e, st.salt⟩
        st.iv st.encryptedData = none := by
      unfold aesGcmDecrypt
      rw [if_neg]
      intro hc
      rcases hbad with hb | hb
      · exact hb (by rw [hc.1])
      · exact hb hc.2
    rw [hnone]
    split <;> rfl
  · intro st
    rw [decryptCredentials_some]
    split
    · exact Or.inl rfl
    · split
      · exact Or.inl rfl
      · rename_i c heq
        split
        · exact Or.inl rfl
        · right
          unfold aesGcmDecrypt at heq
          split at heq
          · injection heq with h
            rw [h]
          · exact absurd heq (by simp)

theorem vault_store_retrieve_roundtrip_witness :
    decryptCredentials fpW [2, 3] 1000 (some stW)
      = (some ⟨"user@gmail.com", "abcdefghijklmnop", 0⟩, some stW) :=
  vault_store_retrieve_roundtrip fpW [1] [2, 3] [7] [9] 0 1000
    "user@gmail.com" "abcd efgh ijkl mnop" stW (by decide)
    (by unfold encryptCredentials
        rw [if_neg (by decide), if_neg (by decide)]
        dsimp only
        rw [if_neg (by decide)]
        rfl)
    (by decide)

theorem decrypt_never_raises_witness :
    decryptCredentials "fp" [] 4000000 (some ⟨⟨⟨"p", []⟩, [], ⟨"a", "b", 0⟩⟩, [], [], 0⟩)
      = (none, none) :=
  (decrypt_never_raises "fp" [] 4000000).2.1 ⟨⟨⟨"p", []⟩, [], ⟨"a", "b", 0⟩⟩, [], [], 0⟩
    (by decide)

/-- Running further attempts, all within the current window, drives the
counter of an existing entry up to the cap of 5 and no further, and never
moves the window. -/
theorem rateAttempts_entry (ip : String) :
    ∀ (ts : List Nat) (store : RateLimitStore) (k R : Nat),
      store ip = some ⟨k, R⟩ → 1 ≤ k → k ≤ 5 → (∀ t ∈ ts, t ≤ R) →
      (rateAttempts ip ts store) ip = some ⟨min (k + ts.length) 5, R⟩
  | [], store, k, R, hip, hk, hk5, _ => by
      simp only [rateAttempts, hip, List.length_nil, Nat.add_zero]
      rw [Nat.min_eq_left hk5]
  | t :: ts, store, k, R, hip, hk, hk5, hts => by
      have ht : t ≤ R := hts t (by simp)
      by_cases hcap : RATE_LIMIT_MAX_ATTEMPTS ≤ k
      · have hstep : (checkRateLimit t store ip).store = store := by
          simp [checkRateLimit, hip, if_neg (by omega : ¬ R < t), hcap]
        have ih := rateAttempts_entry ip ts store k R hip hk hk5
          (fun u hu => hts u (by simp [hu]))
        simp only [rateAttempts, hstep, ih, List.length_cons]
        simp only [RATE_LIMIT_MAX_ATTEMPTS] at hcap
        rw [Nat.min_eq_right (by omega), Nat.min_eq_right (by omega)]
      · have hstep : (checkRateLimit t store ip).store ip = some ⟨k + 1, R⟩ := by
          simp [checkRateLimit, hip, if_neg (by omega : ¬ R < t), hcap, rateLimitSet]
        simp only [RATE_LIMIT_MAX_ATTEMPTS] at hcap
        have ih := rateAttempts_entry ip ts ((checkRateLimit t store ip).store) (k + 1) R hstep
          (by omega) (by omega) (fun u hu => hts u (by simp [hu]))
        simp only [rateAttempts, ih, List.length_cons]
        have hlen : k + 1 + ts.length = k + (ts.length + 1) := by omega
        rw [hlen]

/-- C3 (amended): for each client key the limiter enforces a fixed
15-minute window with at most 5 attempts: after a first attempt at `t0`
and four more attempts within the window, the stored counter is 5 and the
window reset time is `t0 + 15min`; a 6th attempt within the window is
rejected with that reset time — but it leaves the counter unchanged at 5
(the source returns before `entry.count++`, so rejected attempts do NOT
increment the counter); the first attempt after the window elapses is
allowed and passes on to the later stages (here reaching the live check
and succeeding), resetting the entry to count 1 with a fresh window. -/
theorem rate_limiter_window (ip : String) (t0 : Nat) (ts : List Nat) (t6 t7 : Nat)
    (email appPassword : String)
    (h4 : ts.length = 4) (hts : ∀ t ∈ ts, t ≤ t0 + RATE_LIMIT_WINDOW)
    (h6 : t6 ≤ t0 + RATE_LIMIT_WINDOW) (h7 : t0 + RATE_LIMIT_WINDOW < t7)
    (hval : validateInput email appPassword = .valid) :
    (rateAttempts ip (t0 :: ts) (fun _ => none)) ip
        = some ⟨5, t0 + RATE_LIMIT_WINDOW⟩
    ∧ validatePOST false true t6 (rateAttempts ip (t0 :: ts) (fun _ => none)) ip
          email appPassword true
        = (.rateLimited (t0 + RATE_LIMIT_WINDOW),
           rateAttempts ip (t0 :: ts) (fun _ => none))
    ∧ (checkRateLimit t6 (rateAttempts ip (t0 :: ts) (fun _ => none)) ip).store ip
        = some ⟨5, t0 + RATE_LIMIT_WINDOW⟩
    ∧ (validatePOST false true t7 (rateAttempts ip (t0 :: ts) (fun _ => none)) ip
          email appPassword true).1 = .okResp
    ∧ (validatePOST false true t7 (rateAttempts ip (t0 :: ts) (fun _ => none)) ip
          email appPassword true).2 ip = some ⟨1, t7 + RATE_LIMIT_WINDOW⟩ := by
  have hfirst : (checkRateLimit t0 (fun _ => none) ip).store ip
      = some ⟨1, t0 + RATE_LIMIT_WINDOW⟩ := by
    simp [checkRateLimit, rateLimitSet]
  have hfull : (rateAttempts ip (t0 :: ts) (fun _ => none)) ip
      = some ⟨5, t0 + RATE_LIMIT_WINDOW⟩ := by
    have := rateAttempts_entry ip ts ((checkRateLimit t0 (fun _ => none) ip).store)
      1 (t0 + RATE_LIMIT_WINDOW) hfirst (by omega) (by omega) hts
    simpa [rateAttempts, h4] using this
  have hreject : checkRateLimit t6 (rateAttempts ip (t0 :: ts) (fun _ => none)) ip
      = ⟨false, some (t0 + RATE_LIMIT_WINDOW), rateAttempts ip (t0 :: ts) (fun _ => none)⟩ := by
    simp [checkRateLimit, hfull, if_neg (by omega : ¬ t0 + RATE_LIMIT_WINDOW < t6),
      RATE_LIMIT_MAX_ATTEMPTS]
  have hallow : checkRateLimit t7 (rateAttempts ip (t0 :: ts) (fun _ => none)) ip
      = ⟨true, none, rateLimitSet (rateAttempts ip (t0 :: ts) (fun _ => none)) ip
          ⟨1, t7 + RATE_LIMIT_WINDOW⟩⟩ := by
    simp [checkRateLimit, hfull, if_pos h7]
  refine ⟨hfull, ?_, ?_, ?_, ?_⟩
  · simp [validatePOST, hreject]
  · rw [hreject]
    exact hfull
  · simp [validatePOST, hallow, hval]
  · simp [validatePOST, hallow, hval, rateLimitSet]

/-- C3 counterexample to the claim as stated: the claim says the attempt
counter increments on every attempt, including attempts that are
themselves rejected; but after six attempts at time 0 from a fresh store
the stored counter is 5, not 6 — the source returns early on a rejected
attempt without touching the counter. -/
theorem rate_limiter_counter_counterexample :
    (rateAttempts "1.2.3.4" [0, 0, 0, 0, 0, 0] (fun _ => none)) "1.2.3.4"
        = some ⟨5, RATE_LIMIT_WINDOW⟩
    ∧ (rateAttempts "1.2.3.4" [0, 0, 0, 0, 0, 0] (fun _ => none)) "1.2.3.4"
        ≠ some ⟨6, RATE_LIMIT_WINDOW⟩
    ∧ (checkRateLimit 0 (rateAttempts "1.2.3.4" [0, 0, 0, 0, 0, 0] (fun _ => none))
        "1.2.3.4").allowed = false := by
  refine ⟨?_, ?_, ?_⟩ <;> decide

theorem rate_limiter_window_witness :
    (rateAttempts "9.9.9.9" (100 :: [200, 300, 400, 500]) (fun _ => none)) "9.9.9.9"
        = some ⟨5, 100 + RATE_LIMIT_WINDOW⟩
    ∧ (validatePOST false true 600
          (rateAttempts "9.9.9.9" (100 :: [200, 300, 400, 500]) (fun _ => none)) "9.9.9.9"
          "user@gmail.com" "abcd efgh ijkl mnop" true).1
        = .rateLimited (100 + RATE_LIMIT_WINDOW) := by
  have h := rate_limiter_window "9.9.9.9" 100 [200, 300, 400, 500] 600 1000000
    "user@gmail.com" "abcd efgh ijkl mnop" (by decide) (by decide) (by decide) (by decide)
    (by decide)
  exact ⟨by simpa using h.1, by rw [h.2.1]⟩

/-- C8: format validation rejects every secret whose whitespace-stripped
form has length 15 or 17, and every secret containing a non-alphanumeric
character after normalization; it rejects the address `user@notgmail.org`
(matching neither accepted domain shape); and it accepts
`user@gmail.com` and `student@college.edu.in`, each with any secret that
is exactly 16 alphanumeric characters after whitespace removal. -/
theorem format_validation (email appPassword : String) :
    ((stripWs appPassword).length = 15 ∨ (stripWs appPassword).length = 17 →
      validateInput email appPassword ≠ .valid)
    ∧ ((∃ c ∈ (stripWs appPassword).data, ¬ c.isAlphanum) →
      validateInput email appPassword ≠ .valid)
    ∧ (validateInput "user@notgmail.org" appPassword ≠ .valid)
    ∧ ((stripWs appPassword).length = 16 →
      (∀ c ∈ (stripWs appPassword).data, c.isAlphanum) →
      validateInput "user@gmail.com" appPassword = .valid
        ∧ validateInput "student@college.edu.in" appPassword = .valid) := by
  refine ⟨?_, ?_, ?_, ?_⟩
  · intro h hv
    unfold validateInput at hv
    split at hv
    · exact ValidationResult.noConfusion hv
    split at hv
    · exact ValidationResult.noConfusion hv
    split at hv
    · exact ValidationResult.noConfusion hv
    dsimp only at hv
    split at hv
    · exact ValidationResult.noConfusion hv
    rename_i hlen
    simp only [Bool.not_eq_true', Bool.not_eq_false, beq_iff_eq] at hlen
    rcases h with h | h <;> omega
  · intro h hv
    unfold validateInput at hv
    split at hv
    · exact ValidationResult.noConfusion hv
    split at hv
    · exact ValidationResult.noConfusion hv
    split at hv
    · exact ValidationResult.noConfusion hv
    dsimp only at hv
    split at hv
    · exact ValidationResult.noConfusion hv
    split at hv
    · exact ValidationResult.noConfusion hv
    rename_i halnum
    obtain ⟨c, hc, hbad⟩ := h
    simp only [alnumTest, Bool.not_eq_true', Bool.not_eq_false, Bool.and_eq_true,
      List.all_eq_true] at halnum
    exact hbad (halnum.2 c hc)
  · intro hv
    unfold validateInput at hv
    rw [if_neg (by decide), if_pos (by decide)] at hv
    exact ValidationResult.noConfusion hv
  · intro hlen halnum
    have hpw : ¬ appPassword = "" := by
      intro he
      rw [he] at hlen
      exact absurd hlen (by decide)
    have hlenEq : ((stripWs appPassword).length == 16) = true := by
      simp [hlen]
    have hdata : (stripWs appPassword).data.length = 16 := hlen
    have halnumEq : alnumTest (stripWs appPassword) = true := by
      simp only [alnumTest, Bool.and_eq_true, Bool.not_eq_true', List.all_eq_true]
      refine ⟨?_, fun c hc => halnum c hc⟩
      cases hd : (stripWs appPassword).data with
      | nil => rw [hd] at hdata; exact absurd hdata (by decide)
      | cons c cs => rfl
    constructor <;>
      (unfold validateInput
       rw [if_neg (by decide), if_neg (by decide), if_neg hpw]
       dsimp only
       rw [if_neg (by simp [hlenEq]), if_neg (by simp [halnumEq])])

theorem format_validation_witness :
    validateInput "user@gmail.com" "abcd efgh ijkl mnop" = .valid
    ∧ validateInput "user@notgmail.org" "abcdefghijklmnop" ≠ .valid :=
  ⟨((format_validation "user@gmail.com" "abcd efgh ijkl mnop").2.2.2 (by decide)
      (by decide)).1,
    (format_validation "x" "abcdefghijklmnop").2.2.1⟩

/-- Both outcome shapes keep the recipient's address in the result row. -/
theorem sendOne_email (env : MailEnv) (provider : EmailProvider)
    (credentials : Option Credentials) (r : Recipient) :
    (sendOne env provider credentials r).email = r.email := by
  unfold sendOne
  cases sendCertificateEmail env r.email r.name r.certificateBlob r.fileName provider
    credentials <;> rfl

theorem seqStarts_length (dur : Recipient → Nat) :
    ∀ (rs : List Recipient) (t0 : Nat), (seqStarts dur t0 rs).length = rs.length
  | [], _ => rfl
  | r :: rest, t0 => by simp [seqStarts, seqStarts_length dur rest]

theorem seqStarts_getD_succ (dur : Recipient → Nat) :
    ∀ (rs : List Recipient) (t0 i : Nat), i + 1 < rs.length →
      (seqStarts dur t0 rs).getD (i + 1) 0
        = (seqStarts dur t0 rs).getD i 0 + dur (rs.getD i defaultRecipient) + 500
  | [], _, i, h => by simp at h
  | r :: rest, t0, 0, h => by
      cases rest with
      | nil => simp at h
      | cons r2 rest2 => simp [seqStarts, List.getD_cons_succ, List.getD_cons_zero]
  | r :: rest, t0, i + 1, h => by
      have ih := seqStarts_getD_succ dur rest (t0 + dur r + 500) i
        (by simp at h; omega)
      simpa [seqStarts, List.getD_cons_succ] using ih

theorem seqDelay_sum (dur : Recipient → Nat) :
    ∀ rs : List Recipient, 500 * rs.length ≤ (rs.map (fun r => dur r + 500)).sum
  | [] => by simp
  | r :: rest => by
      have ih := seqDelay_sum dur rest
      simp only [List.map_cons, List.sum_cons, List.length_cons]
      omega

/-- Characterization of the sequential loop: the result list pairs the
start times with the per-recipient outcomes in input order, and the loop
ends after the sum of all send durations plus one 500 ms delay per
recipient. -/
theorem seqRun_spec (env : MailEnv) (provider : EmailProvider)
    (credentials : Option Credentials) (dur : Recipient → Nat) :
    ∀ (rs : List Recipient) (t0 : Nat),
      (seqRun env provider credentials dur t0 rs).1
        = List.zip (seqStarts dur t0 rs) (rs.map (sendOne env provider credentials))
      ∧ (seqRun env provider credentials dur t0 rs).2
        = t0 + (rs.map (fun r => dur r + 500)).sum
  | [], t0 => by simp [seqRun, seqStarts]
  | r :: rest, t0 => by
      have ih := seqRun_spec env provider credentials dur rest (t0 + dur r + 500)
      simp only [seqRun, seqStarts, List.map_cons, List.zip_cons_cons, List.sum_cons]
      exact ⟨by rw [ih.1], by rw [ih.2]; omega⟩

/-- C6: strategy selection: for the gmail backend an explicit sendingMode
override is used as given; with no override, pooled is chosen exactly
when the backend is gmail and there are at least 50 recipients; the
resend backend always ends up sequential; in particular 49 gmail
recipients with no override select sequential, 50 select pooled, and 10
with override pooled select pooled. -/
theorem strategy_selection :
    (∀ (m : SendingMode) (n : Nat), selectedMode (some m) .gmail n = m)
    ∧ (∀ (p : EmailProvider) (n : Nat),
        selectedMode none p n = .pooled ↔ (p = .gmail ∧ 50 ≤ n))
    ∧ (∀ (m : Option SendingMode) (n : Nat), selectedMode m .resend n = .sequential)
    ∧ selectedMode none .gmail 49 = .sequential
    ∧ selectedMode none .gmail 50 = .pooled
    ∧ selectedMode (some .pooled) .gmail 10 = .pooled := by
  refine ⟨?_, ?_, ?_, by decide, by decide, by decide⟩
  · intro m n
    cases m <;> simp [selectedMode, shouldUsePooled]
  · intro p n
    cases p <;> by_cases h : 50 ≤ n <;>
      simp [selectedMode, shouldUsePooled, h]
  · intro m n
    simp [selectedMode]

theorem strategy_selection_witness :
    selectedMode none .gmail 49 = .sequential ∧ selectedMode none .gmail 50 = .pooled :=
  ⟨strategy_selection.2.2.2.1, strategy_selection.2.2.2.2.1⟩

/-- C5: sequential dispatch: the result list has exactly one entry per
recipient, in input order, each entry carrying that recipient's own
fully-resolved outcome (an individual failure never aborts the batch);
every attempt starts exactly `dur r + 500` after the previous attempt
started — i.e. only once the previous send resolved (successfully or
not) and the fixed 500 ms delay elapsed; and the loop ends after every
send duration plus one 500 ms delay per recipient, hence at least
N × 500 ms after it started. -/
theorem sequential_dispatch (env : MailEnv) (provider : EmailProvider)
    (credentials : Option Credentials) (dur : Recipient → Nat) (t0 : Nat)
    (rs : List Recipient) :
    ((seqRun env provider credentials dur t0 rs).1).map Prod.snd
        = rs.map (sendOne env provider credentials)
    ∧ ((seqRun env provider credentials dur t0 rs).1).map (fun e => e.2.email)
        = rs.map (fun r => r.email)
    ∧ ((seqRun env provider credentials dur t0 rs).1).length = rs.length
    ∧ ((seqRun env provider credentials dur t0 rs).1).map Prod.fst = seqStarts dur t0 rs
    ∧ (∀ i : Nat, i + 1 < rs.length →
        (seqStarts dur t0 rs).getD (i + 1) 0
          = (seqStarts dur t0 rs).getD i 0 + dur (rs.getD i defaultRecipient) + 500)
    ∧ (seqRun env provider credentials dur t0 rs).2
        = t0 + (rs.map (fun r => dur r + 500)).sum
    ∧ t0 + 500 * rs.length ≤ (seqRun env provider credentials dur t0 rs).2 := by
  have hspec := seqRun_spec env provider credentials dur rs t0
  have hlen : (seqStarts dur t0 rs).length = (rs.map (sendOne env provider credentials)).length := by
    rw [seqStarts_length, List.length_map]
  have hsnd : ((seqRun env provider credentials dur t0 rs).1).map Prod.snd
      = rs.map (sendOne env provider credentials) := by
    rw [hspec.1]
    exact List.map_snd_zip _ _ (le_of_eq hlen.symm)
  refine ⟨hsnd, ?_, ?_, ?_, fun i hi => seqStarts_getD_succ dur rs t0 i hi, hspec.2, ?_⟩
  · have : ((seqRun env provider credentials dur t0 rs).1).map (fun e => e.2.email)
        = (((seqRun env provider credentials dur t0 rs).1).map Prod.snd).map
            (fun d => d.email) := by
      rw [List.map_map]
      rfl
    rw [this, hsnd, List.map_map]
    exact List.map_congr_left (fun r _ => sendOne_email env provider credentials r)
  · rw [hspec.1, List.length_zip, hlen, List.length_map, Nat.min_self]
  · rw [hspec.1]
    exact List.map_fst_zip _ _ (le_of_eq hlen)
  · rw [hspec.2]
    have := seqDelay_sum dur rs
    omega

theorem sequential_dispatch_witness :
    ((seqRun envW .resend none (fun _ => 3) 0 [rW, rW2]).1).map (fun e => e.2.email)
        = ["r1@x.com", "r2@x.com"]
    ∧ (seqStarts (fun _ => 3) 0 [rW, rW2]).getD 1 0
        = (seqStarts (fun _ => 3) 0 [rW, rW2]).getD 0 0 + 3 + 500 := by
  have h := sequential_dispatch envW .resend none (fun _ => 3) 0 [rW, rW2]
  refine ⟨by rw [h.2.1]; decide, ?_⟩
  have h5 := h.2.2.2.2.1 0 (by decide)
  simpa using h5

/-- C2 (amended): when the pooled strategy is selected for the gmail
backend and no credential is supplied, the dispatch throws the
credentials-required error before any recipient is attempted; but when
the sequential strategy is selected, a missing credential does NOT fail
the dispatch — the loop runs over every recipient and each one yields a
failed DispatchResult carrying the credentials-required error, the batch
completing normally. -/
theorem credential_required (env : MailEnv) (recipients : List Recipient)
    (sendingMode : Option SendingMode) (dur : Recipient → Nat) (t0 : Nat) (ks : List Nat) :
    (shouldUsePooled sendingMode .gmail recipients.length = true →
      sendBulkCertificates env recipients .gmail sendingMode none dur t0 ks
        = .thrown "Gmail credentials required for pooled sending")
    ∧ (shouldUsePooled sendingMode .gmail recipients.length = false →
      sendBulkCertificates env recipients .gmail sendingMode none dur t0 ks
        = .seqDone (List.zip (seqStarts dur t0 recipients)
            (recipients.map (fun r => ⟨r.email, false, none,
              some "Gmail credentials required but not provided", "gmail"⟩)))
            (t0 + (recipients.map (fun r => dur r + 500)).sum)) := by
  constructor
  · intro h
    unfold sendBulkCertificates
    rw [if_pos (by simp [h])]
  · intro h
    unfold sendBulkCertificates
    rw [if_neg (by simp [h])]
    dsimp only
    have hspec := seqRun_spec env .gmail none dur recipients t0
    have hmap : recipients.map (sendOne env .gmail none)
        = recipients.map (fun r => (⟨r.email, false, none,
            some "Gmail credentials required but not provided", "gmail"⟩ : DispatchResult)) :=
      List.map_congr_left (fun r _ => rfl)
    rw [hspec.1, hspec.2, hmap]

/-- C2 counterexample to the claim as stated: a sequential gmail dispatch
with no credential does not fail with a credentials-required error — it
completes, producing a failed per-recipient result row instead. -/
theorem credential_required_counterexample :
    sendBulkCertificates envW [rW] .gmail (some .sequential) none (fun _ => 0) 0 []
      = .seqDone [(0, ⟨"r1@x.com", false, none,
          some "Gmail credentials required but not provided", "gmail"⟩)] 500 := rfl

theorem credential_required_witness :
    sendBulkCertificates envW [rW] .gmail (some .pooled) none (fun _ => 0) 0 []
      = .thrown "Gmail credentials required for pooled sending" :=
  (credential_required envW [rW] (some .pooled) (fun _ => 0) 0 []).1 (by decide)

theorem processWhileIdle_spec (env : MailEnv) (creds : Credentials) :
    ∀ (k : Nat) (s : PooledState),
      processWhileIdle env creds k s
        = { s with queued := s.queued.drop k,
                   results := s.results ++ (s.queued.take k).map (pooledSendOne env creds) }
  | 0, s => by simp [processWhileIdle]
  | k + 1, s => by
      obtain ⟨q, res, cl, rv⟩ := s
      cases q with
      | nil => simp [processWhileIdle]
      | cons r rest =>
          have ih := processWhileIdle_spec env creds k
            ⟨rest, res ++ [pooledSendOne env creds r], cl, rv⟩
          simp [processWhileIdle, ih]

theorem handleIdle_inv (env : MailEnv) (creds : Credentials) (rs : List Recipient)
    (k : Nat) (s : PooledState) (hinv : PooledInv env creds rs s) :
    PooledInv env creds rs (handleIdle env creds rs.length k s)
    ∧ (handleIdle env creds rs.length k s).results.length
        = min (s.results.length + k) rs.length
    ∧ ((handleIdle env creds rs.length k s).results.length = rs.length →
        (handleIdle env creds rs.length k s).resolved
          = some ((handleIdle env creds rs.length k s).results)
        ∧ (handleIdle env creds rs.length k s).closed = true) := by
  obtain ⟨q, res, cl, rv⟩ := s
  unfold PooledInv at hinv
  obtain ⟨hq, hres, hlen, hstat⟩ := hinv
  dsimp only at hq hres hlen hstat
  unfold handleIdle
  rw [processWhileIdle_spec]
  dsimp only
  set n := res.length with hn
  have hqval : q.drop k = rs.drop (min (n + k) rs.length) := by
    rw [hq, hn, List.drop_drop]
    by_cases hk : n + k ≤ rs.length
    · rw [Nat.min_eq_left hk]
    · rw [Nat.min_eq_right (by omega), List.drop_length]
      exact List.drop_eq_nil_of_le (by omega)
  have hresval : res ++ (q.take k).map (pooledSendOne env creds)
      = (rs.take (min (n + k) rs.length)).map (pooledSendOne env creds) := by
    rw [hres, hq, hn, ← List.map_append]
    congr 1
    by_cases hk : k ≤ rs.length - n
    · rw [Nat.min_eq_left (by omega), List.take_add]
    · rw [Nat.min_eq_right (by omega)]
      have hdropTake : (rs.drop res.length).take k = rs.drop res.length :=
        List.take_of_length_le (by rw [List.length_drop]; omega)
      rw [hdropTake, List.take_append_drop, List.take_length]
  have hlen2 : ((rs.take (min (n + k) rs.length)).map (pooledSendOne env creds)).length
      = min (n + k) rs.length := by
    rw [List.length_map, List.length_take]
    omega
  rw [hqval, hresval]
  split
  · rename_i hcond
    simp only [Bool.and_eq_true, beq_iff_eq, List.isEmpty_eq_true] at hcond
    refine ⟨⟨?_, ?_, ?_, Or.inr ⟨rfl, rfl, hcond.2⟩⟩, hlen2, fun _ => ⟨rfl, rfl⟩⟩
    · dsimp only
      rw [hlen2]
    · dsimp only
      rw [hlen2]
    · dsimp only
      rw [hlen2]
      omega
  · rename_i hcond
    simp only [Bool.and_eq_true, beq_iff_eq, List.isEmpty_eq_true, not_and] at hcond
    have hnotfull : min (n + k) rs.length ≠ rs.length := by
      intro hfull
      exact hcond (by rw [hfull, List.drop_length]) (by rw [hlen2, hfull])
    refine ⟨⟨?_, ?_, ?_, ?_⟩, hlen2, ?_⟩
    · dsimp only
      rw [hlen2]
    · dsimp only
      rw [hlen2]
    · dsimp only
      rw [hlen2]
      omega
    · dsimp only
      rcases hstat with ⟨h1, h2⟩ | ⟨h1, h2, h3⟩
      · exact Or.inl ⟨h1, h2⟩
      · exact absurd (by omega : min (n + k) rs.length = rs.length) hnotfull
    · dsimp only
      intro hfull
      rw [hlen2] at hfull
      exact absurd hfull hnotfull

theorem runIdleEvents_inv (env : MailEnv) (creds : Credentials) (rs : List Recipient) :
    ∀ (ks : List Nat) (s : PooledState), PooledInv env creds rs s →
      PooledInv env creds rs (runIdleEvents env creds rs.length ks s)
  | [], _, h => h
  | k :: ks, s, h =>
      runIdleEvents_inv env creds rs ks _ (handleIdle_inv env creds rs k s h).1

theorem runIdleEvents_length (env : MailEnv) (creds : Credentials) (rs : List Recipient) :
    ∀ (ks : List Nat) (s : PooledState), PooledInv env creds rs s →
      (runIdleEvents env creds rs.length ks s).results.length
        = min (s.results.length + ks.sum) rs.length
  | [], s, h => by
      have hlen3 : s.results.length ≤ rs.length := by
        unfold PooledInv at h
        exact h.2.2.1
      simp only [runIdleEvents, List.sum_nil, Nat.add_zero]
      omega
  | k :: ks, s, h => by
      have hstep := handleIdle_inv env creds rs k s h
      have ih := runIdleEvents_length env creds rs ks _ hstep.1
      simp only [runIdleEvents, List.sum_cons]
      rw [ih, hstep.2.1]
      omega

theorem runIdleEvents_resolves (env : MailEnv) (creds : Credentials) (rs : List Recipient) :
    ∀ (ks : List Nat) (s : PooledState), PooledInv env creds rs s → ks ≠ [] →
      rs.length ≤ s.results.length + ks.sum →
      (runIdleEvents env creds rs.length ks s).resolved
          = some ((runIdleEvents env creds rs.length ks s).results)
        ∧ (runIdleEvents env creds rs.length ks s).closed = true
  | [], _, _, hne, _ => absurd rfl hne
  | [k], s, h, _, hsum => by
      have hstep := handleIdle_inv env creds rs k s h
      have hfull : (handleIdle env creds rs.length k s).results.length = rs.length := by
        rw [hstep.2.1]
        simp only [List.sum_cons, List.sum_nil] at hsum
        omega
      have hres := hstep.2.2 hfull
      simpa [runIdleEvents] using hres
  | k :: k2 :: ks, s, h, _, hsum => by
      have hstep := handleIdle_inv env creds rs k s h
      have ih := runIdleEvents_resolves env creds rs (k2 :: ks) _ hstep.1 (by simp)
        (by
          rw [hstep.2.1]
          simp only [List.sum_cons] at hsum ⊢
          omega)
      simpa [runIdleEvents] using ih

/-- C4: pooled dispatch: at every point the recorded results are exactly
one per processed recipient, in order, with no duplicates and no retries;
whenever the promise resolves, every recipient has produced exactly one
DispatchResult (success and failure both terminal) and the pooled
transporter has been closed; and with idle capacity covering the batch
(at least one idle event whose capacities sum to the batch size), the
promise does resolve with exactly one result per recipient. -/
theorem pooled_dispatch (env : MailEnv) (creds : Credentials) (rs : List Recipient)
    (ks : List Nat) :
    ((sendBulkCertificatesPooled env creds rs ks).results
        = (rs.take (sendBulkCertificatesPooled env creds rs ks).results.length).map
            (pooledSendOne env creds)
      ∧ (sendBulkCertificatesPooled env creds rs ks).results.length ≤ rs.length)
    ∧ (∀ res, (sendBulkCertificatesPooled env creds rs ks).resolved = some res →
        res = rs.map (pooledSendOne env creds)
          ∧ (sendBulkCertificatesPooled env creds rs ks).results = res
          ∧ (sendBulkCertificatesPooled env creds rs ks).closed = true)
    ∧ (ks ≠ [] → rs.length ≤ ks.sum →
        (sendBulkCertificatesPooled env creds rs ks).resolved
            = some (rs.map (pooledSendOne env creds))
          ∧ (sendBulkCertificatesPooled env creds rs ks).closed = true) := by
  have hinit : PooledInv env creds rs ⟨rs, [], false, none⟩ := by
    unfold PooledInv
    exact ⟨by simp, by simp, by simp, Or.inl ⟨rfl, rfl⟩⟩
  unfold sendBulkCertificatesPooled
  have hfin := runIdleEvents_inv env creds rs ks _ hinit
  have hlenfin := runIdleEvents_length env creds rs ks _ hinit
  unfold PooledInv at hfin
  obtain ⟨hq, hres, hlen, hstat⟩ := hfin
  refine ⟨⟨hres, hlen⟩, ?_, ?_⟩
  · intro res hres2
    rcases hstat with ⟨h1, _⟩ | ⟨h1, h2, h3⟩
    · rw [h1] at hres2
      exact Option.noConfusion hres2
    · rw [h1] at hres2
      have heq := Option.some.inj hres2
      refine ⟨?_, heq, h2⟩
      rw [← heq, hres, h3, List.take_length]
  · intro hne hsum
    have hresolve := runIdleEvents_resolves env creds rs ks _ hinit hne
      (by simpa using hsum)
    refine ⟨?_, hresolve.2⟩
    rw [hresolve.1]
    congr 1
    rw [hres]
    have hfull : (runIdleEvents env creds rs.length ks
        (⟨rs, [], false, none⟩ : PooledState)).results.length = rs.length := by
      rw [hlenfin]
      simp only [List.length_nil, Nat.zero_add]
      omega
    rw [hfull, List.take_length]

theorem pooled_dispatch_witness :
    (sendBulkCertificatesPooled envFail ⟨"u@gmail.com", "pw"⟩ [rW, rW2] [1, 1]).resolved
        = some [⟨"r1@x.com", true, some "mid-1", none, "gmail-pooled"⟩,
            ⟨"r2@x.com", false, none, some "boom", "gmail-pooled"⟩]
    ∧ (sendBulkCertificatesPooled envFail ⟨"u@gmail.com", "pw"⟩ [rW, rW2] [1, 1]).closed
        = true := by
  have h := (pooled_dispatch envFail ⟨"u@gmail.com", "pw"⟩ [rW, rW2] [1, 1]).2.2
    (by decide) (by decide)
  exact ⟨by rw [h.1]; rfl, h.2⟩

/-- C9 counterexample to the claim as stated: the per-recipient send
outcome is NOT independent of whether the logo file exists — under two
environments that differ only in the presence of ./public/klh.png (same
transporter and hosted-API oracles), the same gmail send succeeds with
the logo present and fails with it absent, because the logo is attached
by file path unconditionally and the mail library fails the send when it
cannot read the path. -/
theorem logo_independence_counterexample :
    sendCertificateEmail envW "a@b.com" "A" [1] "c.png" .gmail (some ⟨"u@gmail.com", "pw"⟩)
        = .sent (some "mid-1") "gmail"
    ∧ sendCertificateEmail envNoLogo "a@b.com" "A" [1] "c.png" .gmail
          (some ⟨"u@gmail.com", "pw"⟩)
        = .failed "ENOENT: no such file or directory" "gmail"
    ∧ envW.resendFrom = envNoLogo.resendFrom
    ∧ envW.deliver = envNoLogo.deliver
    ∧ envW.resendSend = envNoLogo.resendSend :=
  ⟨rfl, rfl, rfl, rfl, rfl⟩

/-- C9 (amended): every gmail and pooled message references the logo by
content-id from the fixed static path unconditionally — there is no
availability check; when the logo file is missing, each per-recipient
send fails with the file-read error, recorded in that recipient's result
row, while the batch still yields exactly one result per recipient (the
absence never aborts the batch, but it does fail the individual sends). -/
theorem logo_always_attached (env : MailEnv) (creds : Credentials)
    (email name fileName : String) (buffer : List Nat) (r : Recipient) :
    ((gmailAttachments fileName buffer).any
        (fun a => a.path == some LOGO_PATH && a.cid == some "klh-logo") = true)
    ∧ (env.files.contains LOGO_PATH = false →
        sendMailModel env (gmailMessage creds email name buffer fileName)
            = .error "ENOENT: no such file or directory"
          ∧ sendMailModel env (pooledMessage creds r)
            = .error "ENOENT: no such file or directory")
    ∧ (∀ (provider : EmailProvider) (credentials : Option Credentials)
          (dur : Recipient → Nat) (t0 : Nat) (rs : List Recipient),
        ((seqRun env provider credentials dur t0 rs).1).length = rs.length) := by
  refine ⟨rfl, ?_, ?_⟩
  · intro h
    have h2 : LOGO_PATH ∉ env.files := by simpa using h
    constructor <;>
      simp [sendMailModel, gmailMessage, pooledMessage, gmailAttachments, h2]
  · intro provider credentials dur t0 rs
    exact (sequential_dispatch env provider credentials dur t0 rs).2.2.1

theorem logo_always_attached_witness :
    sendMailModel envNoLogo (gmailMessage ⟨"u@gmail.com", "pw"⟩ "a@b.com" "A" [1] "c.png")
      = .error "ENOENT: no such file or directory" :=
  ((logo_always_attached envNoLogo ⟨"u@gmail.com", "pw"⟩ "a@b.com" "A" "c.png" [1] rW).2.1
    (by decide)).1

/-- C10 counterexample to the claim as stated: a request whose body
parses and whose recipients list is non-empty does not always get
success true — a gmail request selecting the pooled strategy throws
(the route forwards no credentials) and is answered 500 with success
false. -/
theorem route_success_counterexample :
    POSTsendCertificates envW [rW] .gmail (some .pooled) (fun _ => 0) 0 []
      = some ⟨false, 500, none, none, some "Gmail credentials required for pooled sending"⟩ :=
  rfl

/-- C10 (amended): whenever the sequential path is taken (every request
except a gmail one that selects pooled — which, the route forwarding no
credentials, throws and is answered 500 with success false), the
send-certificates endpoint responds 200 with top-level success true
regardless of per-recipient outcomes — even when every individual send
failed — with failures reflected only in sentCount (the number of
successes) and the errors list, one {email, error} entry per failed
recipient. -/
theorem route_success (env : MailEnv) (recipients : List Recipient)
    (provider : EmailProvider) (sendingMode : Option SendingMode)
    (dur : Recipient → Nat) (t0 : Nat) (ks : List Nat)
    (hne : recipients ≠ []) :
    ((shouldUsePooled sendingMode provider recipients.length && provider == .gmail) = false →
      POSTsendCertificates env recipients provider sendingMode dur t0 ks
        = some ⟨true, 200,
            some ((recipients.map (sendOne env provider none)).filter
              (fun r => r.success)).length,
            some (((recipients.map (sendOne env provider none)).filter
              (fun r => !r.success)).map (fun r => (r.email, r.error))),
            none⟩)
    ∧ ((shouldUsePooled sendingMode provider recipients.length && provider == .gmail) = true →
      POSTsendCertificates env recipients provider sendingMode dur t0 ks
        = some ⟨false, 500, none, none,
            some "Gmail credentials required for pooled sending"⟩) := by
  have hlen0 : ¬ ((recipients.length == 0) = true) := by
    simp only [beq_iff_eq, List.length_eq_zero]
    exact hne
  constructor
  · intro h
    unfold POSTsendCertificates
    rw [if_neg hlen0]
    unfold sendBulkCertificates
    rw [if_neg (by simp [h])]
    dsimp only
    have hspec := seqRun_spec env provider none dur recipients t0
    rw [hspec.1]
    have hsnd : (List.zip (seqStarts dur t0 recipients)
        (recipients.map (sendOne env provider none))).map
          (fun tr => tr.2) = recipients.map (sendOne env provider none) := by
      rw [show (fun tr : Nat × DispatchResult => tr.2) = Prod.snd from rfl]
      exact List.map_snd_zip _ _
        (le_of_eq (by rw [seqStarts_length, List.length_map]))
    rw [hsnd]
  · intro h
    unfold POSTsendCertificates
    rw [if_neg hlen0]
    unfold sendBulkCertificates
    rw [if_pos h]

theorem route_success_witness :
    POSTsendCertificates envW [rW] .gmail (some .sequential) (fun _ => 0) 0 []
      = some ⟨true, 200, some 0,
          some [("r1@x.com", some "Gmail credentials required but not provided")], none⟩ := by
  have h := (route_success envW [rW] .gmail (some .sequential) (fun _ => 0) 0 []
    (by decide)).1 (by decide)
  rw [h]
  rfl

end CertGen

